import Mathlib

/-!
Verification development for the promo-video asset-generation pipeline
(`services/geminiService.ts`, plus the zip text-extraction utility).

The TypeScript source is shallowly embedded: pure text transforms become
functions on `List Char` / `String`; each asynchronous provider call is
abstracted as a function from the attempt number (or the request) to an
`Except`/`Option` outcome, and every retry loop is translated into a
fuel-based structural recursion (the fuel equals the loop bound from the
source), so that all definitions evaluate by kernel reduction.
-/

/-! ## Character classes (JavaScript `\s`, the regex dot, JSON whitespace) -/

/-- Backtick character (code 96), spelled via `Char.ofNat`. -/
def btick : Char := Char.ofNat 96

/-- Null character, as in the binary-content check `includes('\0')`. -/
def nullChar : Char := Char.ofNat 0

/-- JavaScript's `\s` class (whitespace used by `trim`, `\s+` and `,\s*[\]}]`). -/
def isJsWs (c : Char) : Bool :=
  c == ' ' || c == '\t' || c == '\n' || c == '\r' ||
  c == Char.ofNat 11 || c == Char.ofNat 12 ||
  c == Char.ofNat 0xa0 || c == Char.ofNat 0x1680 ||
  (0x2000 ≤ c.toNat && c.toNat ≤ 0x200a) ||
  c == Char.ofNat 0x2028 || c == Char.ofNat 0x2029 ||
  c == Char.ofNat 0x202f || c == Char.ofNat 0x205f ||
  c == Char.ofNat 0x3000 || c == Char.ofNat 0xfeff

/-- Characters matched by the regex `.` (anything but a line terminator). -/
def isDotChar (c : Char) : Bool :=
  !(c == '\n' || c == '\r' || c == Char.ofNat 0x2028 || c == Char.ofNat 0x2029)

/-- JavaScript `String.prototype.trim` on both ends, on the character list. -/
def jsTrim (l : List Char) : List Char :=
  ((l.dropWhile isJsWs).reverse.dropWhile isJsWs).reverse

/-! ## `cleanJson` (geminiService.ts lines 13-33) -/

/-- Case-insensitive prefix test; the pattern is given in lower case, the
input character is lowered before comparison (models the regex `i` flag;
for patterns without letters this is a plain prefix test). -/
def isPrefixCI : List Char → List Char → Bool
  | [], _ => true
  | _ :: _, [] => false
  | p :: ps, x :: xs => (x.toLower == p) && isPrefixCI ps xs

/-- Case-sensitive prefix test. -/
def isPrefixCS : List Char → List Char → Bool
  | [], _ => true
  | _ :: _, [] => false
  | p :: ps, x :: xs => (p == x) && isPrefixCS ps xs

/-- One pass of `String.replace(pattern, '')` with a global flag: every
non-overlapping occurrence of `pat` is deleted, scanning left to right.
The fuel is the input length, which suffices because every step consumes
at least one input character. -/
def eraseAllAux (pat : List Char) : Nat → List Char → List Char
  | _, [] => []
  | 0, s => s
  | fuel + 1, c :: rest =>
    if isPrefixCI pat (c :: rest) then
      eraseAllAux pat fuel ((c :: rest).drop pat.length)
    else
      c :: eraseAllAux pat fuel rest

/-- Delete every occurrence of `pat` (lower-cased pattern) from the input. -/
def eraseAll (pat : List Char) (s : List Char) : List Char :=
  eraseAllAux pat s.length s

/-- Step 1 of `cleanJson`: `.replace(/```json/gi, '').replace(/```/g, '')`. -/
def stripFences (l : List Char) : List Char :=
  eraseAll "```".data (eraseAll "```json".data l)

/-- Index of the first occurrence of `c` (JavaScript `indexOf`), with an
accumulator for the position. -/
def firstIdxAux (c : Char) : List Char → Nat → Option Nat
  | [], _ => none
  | x :: xs, i => if x == c then some i else firstIdxAux c xs (i + 1)

/-- JavaScript `indexOf`, as an `Option` instead of `-1`. -/
def firstIdx (c : Char) (l : List Char) : Option Nat :=
  firstIdxAux c l 0

/-- JavaScript `lastIndexOf`, as an `Option` instead of `-1`. -/
def lastIdx (c : Char) (l : List Char) : Option Nat :=
  match firstIdx c l.reverse with
  | none => none
  | some i => some (l.length - 1 - i)

/-- Step 2 of `cleanJson`: keep `substring(start, end+1)` for the first `[`
and the last `]` when both exist with `start < end`, else leave unchanged. -/
def bracketSpan (l : List Char) : List Char :=
  match firstIdx '[' l, lastIdx ']' l with
  | some s, some e => if s < e then (l.drop s).take (e + 1 - s) else l
  | some _, none => l
  | none, _ => l

/-- Step 3 of `cleanJson`: `.replace(/,(\s*[\]}])/g, '$1')` — drop a comma
standing directly before (whitespace and) a closing `]` or `}`; scanning
resumes after the replaced span.  Fuel-based: each step consumes at least
one character, so the input length is enough fuel. -/
def rtcAux : Nat → List Char → List Char
  | _, [] => []
  | 0, s => s
  | fuel + 1, c :: rest =>
    if c == ',' then
      match rest.dropWhile isJsWs with
      | b :: rest2 =>
        if b == ']' || b == '}' then
          rest.takeWhile isJsWs ++ b :: rtcAux fuel rest2
        else
          c :: rtcAux fuel rest
      | [] => c :: rtcAux fuel rest
    else
      c :: rtcAux fuel rest

/-- Remove trailing commas before `]`/`}` (step 3 of `cleanJson`). -/
def rtc (l : List Char) : List Char :=
  rtcAux l.length l

/-- The `cleanJson` helper of geminiService.ts on character lists: empty
input yields `"[]"`; otherwise strip fences, cut to the outermost bracket
span, remove trailing commas, and trim. -/
def cleanJsonL : List Char → List Char
  | [] => "[]".data
  | l => jsTrim (rtc (bracketSpan (stripFences l)))

/-- The `cleanJson` helper of geminiService.ts (lines 13-33). -/
def cleanJson (s : String) : String :=
  String.mk (cleanJsonL s.data)

/-! ## `cleanScriptForTTS` (geminiService.ts lines 35-40) -/

/-- The regex `/\[.*?\]/g` (and `/\(.*?\)/g`): replace a delimited span by a
single space.  At an opening delimiter the lazy `.*?` runs over dot-matching
characters up to the first closing delimiter; a line terminator before it
makes the match fail, leaving the opener in place.  Scanning resumes after
a replaced span, or one character further after a non-match. -/
def stripDelimAux (openC closeC : Char) : Nat → List Char → List Char
  | _, [] => []
  | 0, s => s
  | fuel + 1, c :: rest =>
    if c == openC then
      match rest.dropWhile (fun d => isDotChar d && !(d == closeC)) with
      | d :: rest2 =>
        if d == closeC then ' ' :: stripDelimAux openC closeC fuel rest2
        else c :: stripDelimAux openC closeC fuel rest
      | [] => c :: stripDelimAux openC closeC fuel rest
    else
      c :: stripDelimAux openC closeC fuel rest

/-- Replace every `openC … closeC` span (regex `.` semantics) by a space. -/
def stripDelim (openC closeC : Char) (l : List Char) : List Char :=
  stripDelimAux openC closeC l.length l

/-- The regex `/\s+/g → ' '`: collapse each whitespace run to one space. -/
def collapseWsAux : Nat → List Char → List Char
  | _, [] => []
  | 0, s => s
  | fuel + 1, c :: rest =>
    if isJsWs c then ' ' :: collapseWsAux fuel (rest.dropWhile isJsWs)
    else c :: collapseWsAux fuel rest

/-- Collapse whitespace runs to single spaces. -/
def collapseWs (l : List Char) : List Char :=
  collapseWsAux l.length l

/-- The `cleanScriptForTTS` helper (lines 35-40): drop asterisks
(`/\*+/g → ''`), blank out `[...]` and `(...)` spans, collapse whitespace,
and trim. -/
def cleanScriptForTTS (s : String) : String :=
  String.mk (jsTrim (collapseWs
    (stripDelim '(' ')' (stripDelim '[' ']' (s.data.filter (fun c => !(c == '*')))))))

/-! ## A small JSON parser, modelling `JSON.parse`

Used to state "the cleaned text parses / fails to parse as JSON".  Values
are parsed into the `Jval` inductive; numbers keep their raw lexeme (their
numeric value is irrelevant here).  The parser is fuelled (fuel bounds the
nesting depth for values and the element count for sequences), so it
evaluates by kernel reduction. -/

/-- JSON values, as produced by `JSON.parse`. -/
inductive Jval where
  | jstr (s : String) : Jval
  | jnum (lexeme : String) : Jval
  | jarr (elems : List Jval) : Jval
  | jobj (fields : List (String × Jval)) : Jval
  | jbool (b : Bool) : Jval
  | jnull : Jval
deriving Repr

/-- JSON insignificant whitespace. -/
def isJsonWs (c : Char) : Bool :=
  [' ', '\t', '\n', '\r'].any (fun w => w == c)

/-- Skip insignificant JSON whitespace. -/
def skipJsonWs (l : List Char) : List Char :=
  l.dropWhile isJsonWs

/-- The two-character string escape table, escape letter paired with its
decoded character. -/
def escTable : List (Char × Char) :=
  [('n', '\n'), ('t', '\t'), ('r', '\r'), ('b', Char.ofNat 8),
   ('f', Char.ofNat 12), ('"', '"'), ('\\', '\\'), ('/', '/')]

/-- Single-character string escapes, looked up in `escTable`. -/
def escChar (c : Char) : Option Char :=
  (escTable.find? (fun pr => pr.1 == c)).map (fun pr => pr.2)

/-- Value of a hex digit, computed from the code point. -/
def hexVal (c : Char) : Option Nat :=
  let n := c.toNat
  if 48 ≤ n && n ≤ 57 then some (n - 48)
  else if 97 ≤ n && n ≤ 102 then some (n - 87)
  else if 65 ≤ n && n ≤ 70 then some (n - 55)
  else none

/-- Parse the body of a JSON string after the opening quote; returns the
decoded characters and the rest after the closing quote. -/
def parseStringAux : Nat → List Char → Option (List Char × List Char)
  | 0, _ => none
  | _ + 1, [] => none
  | fuel + 1, c :: rest =>
    if c == '"' then some ([], rest)
    else if c == '\\' then
      match rest with
      | [] => none
      | e :: rest2 =>
        if e == 'u' then
          match rest2 with
          | h1 :: h2 :: h3 :: h4 :: rest3 =>
            match hexVal h1, hexVal h2, hexVal h3, hexVal h4 with
            | some v1, some v2, some v3, some v4 =>
              (parseStringAux fuel rest3).map
                (fun p => (Char.ofNat (v1 * 4096 + v2 * 256 + v3 * 16 + v4) :: p.1, p.2))
            | _, _, _, _ => none
          | _ => none
        else
          match escChar e with
          | some ch => (parseStringAux fuel rest2).map (fun p => (ch :: p.1, p.2))
          | none => none
    else if c.toNat < 0x20 then none
    else (parseStringAux fuel rest).map (fun p => (c :: p.1, p.2))

/-- Lex a JSON number starting at a digit or `-`; returns the lexeme. -/
def parseNumber (l : List Char) : Option (List Char × List Char) :=
  let (sign, l1) : List Char × List Char :=
    match l with
    | '-' :: t => (['-'], t)
    | _ => ([], l)
  let intPart := l1.takeWhile Char.isDigit
  let l2 := l1.dropWhile Char.isDigit
  if intPart.isEmpty then none
  else
    let (frac, l3) : List Char × List Char :=
      match l2 with
      | '.' :: t =>
        let ds := t.takeWhile Char.isDigit
        ('.' :: ds, t.dropWhile Char.isDigit)
      | _ => ([], l2)
    if frac = ['.'] then none
    else
      match l3 with
      | e :: t =>
        if e == 'e' || e == 'E' then
          let (es, t1) : List Char × List Char :=
            match t with
            | '+' :: t2 => (['+'], t2)
            | '-' :: t2 => (['-'], t2)
            | _ => ([], t)
          let ds := t1.takeWhile Char.isDigit
          if ds.isEmpty then none
          else some (sign ++ intPart ++ frac ++ e :: es ++ ds, t1.dropWhile Char.isDigit)
        else some (sign ++ intPart ++ frac, l3)
      | [] => some (sign ++ intPart ++ frac, l3)

/-- Parse a comma-separated list of values after the first element position
(the empty-sequence case is handled by the caller).  `pv` parses one value. -/
def parseElemsLoop (pv : List Char → Option (Jval × List Char)) :
    Nat → List Char → Option (List Jval × List Char)
  | 0, _ => none
  | fuel + 1, l =>
    match pv l with
    | none => none
    | some (v, r) =>
      match skipJsonWs r with
      | ',' :: r2 =>
        match parseElemsLoop pv fuel r2 with
        | some (vs, r3) => some (v :: vs, r3)
        | none => none
      | ']' :: r2 => some ([v], r2)
      | _ => none

/-- Parse the comma-separated members of an object (nonempty case). -/
def parseFieldsLoop (pv : List Char → Option (Jval × List Char)) :
    Nat → List Char → Option (List (String × Jval) × List Char)
  | 0, _ => none
  | fuel + 1, l =>
    match skipJsonWs l with
    | '"' :: r =>
      match parseStringAux (r.length + 1) r with
      | none => none
      | some (key, r1) =>
        match skipJsonWs r1 with
        | ':' :: r2 =>
          match pv r2 with
          | none => none
          | some (v, r3) =>
            match skipJsonWs r3 with
            | ',' :: r4 =>
              match parseFieldsLoop pv fuel r4 with
              | some (fs, r5) => some ((String.mk key, v) :: fs, r5)
              | none => none
            | '}' :: r4 => some ([(String.mk key, v)], r4)
            | _ => none
        | _ => none
    | _ => none

/-- Parse one JSON value; the fuel bounds the nesting depth. -/
def parseVal : Nat → List Char → Option (Jval × List Char)
  | 0, _ => none
  | fuel + 1, l =>
    match skipJsonWs l with
    | [] => none
    | c :: rest =>
      if c == '"' then
        (parseStringAux (rest.length + 1) rest).map (fun p => (Jval.jstr (String.mk p.1), p.2))
      else if c == '[' then
        match skipJsonWs rest with
        | ']' :: r => some (Jval.jarr [], r)
        | r =>
          match parseElemsLoop (parseVal fuel) (r.length + 1) r with
          | some (vs, r2) => some (Jval.jarr vs, r2)
          | none => none
      else if c == '{' then
        match skipJsonWs rest with
        | '}' :: r => some (Jval.jobj [], r)
        | r =>
          match parseFieldsLoop (parseVal fuel) (r.length + 1) r with
          | some (fs, r2) => some (Jval.jobj fs, r2)
          | none => none
      else if c == 't' then
        match rest with
        | 'r' :: 'u' :: 'e' :: r => some (Jval.jbool true, r)
        | _ => none
      else if c == 'f' then
        match rest with
        | 'a' :: 'l' :: 's' :: 'e' :: r => some (Jval.jbool false, r)
        | _ => none
      else if c == 'n' then
        match rest with
        | 'u' :: 'l' :: 'l' :: r => some (Jval.jnull, r)
        | _ => none
      else if c == '-' || c.isDigit then
        (parseNumber (c :: rest)).map (fun p => (Jval.jnum (String.mk p.1), p.2))
      else none

/-- `JSON.parse` model: parse one value and require only whitespace after it. -/
def parseJsonStr (s : String) : Option Jval :=
  match parseVal (s.data.length + 1) s.data with
  | some (v, r) => if skipJsonWs r = [] then some v else none
  | none => none

/-! ## Data model (types.ts, geminiService.ts) -/

/-- The `Platform` enumeration (types.ts). -/
inductive Platform where
  | tiktok | youtube | instagram | generic
deriving DecidableEq, Repr

/-- The plan-item discriminator `'IMAGE' | 'VIDEO'`. -/
inductive VType where
  | IMAGE | VIDEO
deriving DecidableEq, Repr

/-- `VisualPlanItem` (geminiService.ts lines 137-143).  TypeScript numbers
are modelled as integers (the claims only involve integer timestamps). -/
structure VisualPlanItem where
  type : VType
  description : String
  imagePrompt : Option String := none
  videoStartTime : Option Int := none
  videoEndTime : Option Int := none
deriving DecidableEq, Repr

/-- The asset discriminator `'image' | 'video'`. -/
inductive AssetType where
  | image | video
deriving DecidableEq, Repr

/-- `VisualAsset` (types.ts); absent optional fields are `none`. -/
structure VisualAsset where
  type : AssetType
  description : String
  base64 : Option String := none
  prompt : Option String := none
  videoStart : Option Int := none
  videoEnd : Option Int := none
deriving DecidableEq, Repr

/-- JavaScript `x || d` on an optional number: `undefined`, `0` (falsy)
fall back to the default. -/
def jsOrNum (o : Option Int) (d : Int) : Int :=
  match o with
  | none => d
  | some x => if x = 0 then d else x

/-- JavaScript `s || d` on an optional string: `undefined` and `""` (falsy)
fall back to the default. -/
def jsOrStr (o : Option String) (d : String) : String :=
  match o with
  | none => d
  | some s => if s = "" then d else s

/-! ## `generateWithFlux` (geminiService.ts lines 267-317)

One attempt is abstracted as its outcome: `Except.error m` when anything in
the `try` block throws, `Except.ok (some b)` when a response yields an
image URL whose download encodes to `b`, and `Except.ok none` when the
response carries no image URL.  The run records the returned value, the
number of attempts executed and the backoff delays awaited (ms). -/

/-- Observable outcome of a `generateWithFlux` run. -/
structure FluxRun where
  result : Option String
  attemptsMade : Nat
  delays : List Nat
deriving DecidableEq, Repr

/-- Backoff delay after failed attempt `a`: `Math.pow(1.5, a) * 2000` ms. -/
def fluxDelay (a : Nat) : Nat := 3 ^ a * 2000 / 2 ^ a

/-- The retry loop of `generateWithFlux` (`MAX_RETRIES = 3`): a thrown
attempt advances the counter (with a delay except after the final attempt);
a response without an image URL returns `null` at once; exhaustion returns
`null`.  `made` counts attempts already executed, the fuel is
`MAX_RETRIES - made`. -/
def generateWithFluxAux (att : Nat → Except String (Option String)) :
    Nat → Nat → FluxRun
  | 0, made => ⟨none, made, []⟩
  | fuel + 1, made =>
    match att (made + 1) with
    | .ok (some b) => ⟨some b, made + 1, []⟩
    | .ok none => ⟨none, made + 1, []⟩
    | .error _ =>
      if made + 1 = 3 then generateWithFluxAux att fuel (made + 1)
      else
        let r := generateWithFluxAux att fuel (made + 1)
        ⟨r.result, r.attemptsMade, fluxDelay (made + 1) :: r.delays⟩

/-- `generateWithFlux`, abstracted over the per-attempt outcomes. -/
def generateWithFlux (att : Nat → Except String (Option String)) : FluxRun :=
  generateWithFluxAux att 3 0

/-! ## `generateWithGemini` (lines 319-359) and `generateAsset` (373-416) -/

/-- Aspect ratio chosen by `generateWithGemini` (lines 323-328). -/
def geminiAspect (p : Platform) : String :=
  if p = Platform.tiktok || p = Platform.instagram then "9:16"
  else if p = Platform.youtube || p = Platform.generic then "16:9"
  else "1:1"

/-- Image dimensions requested by `generateAsset` (lines 383-387):
portrait platforms get 768×1024, the rest 1024×768. -/
def imageDims (p : Platform) : Nat × Nat :=
  let isPortrait := p = Platform.tiktok || p = Platform.instagram
  (if isPortrait then 768 else 1024, if isPortrait then 1024 else 768)

/-- `generateAsset` (lines 373-416).  The two providers are abstracted as
functions: `flux prompt width height` and `gemini prompt aspectRatio`, each
returning the base64 payload or `null`.  A `VIDEO` plan item is passed
through with `|| 0` / `|| 5` timestamp defaults and consults no provider. -/
def generateAsset (item : VisualPlanItem) (platform : Platform)
    (flux : String → Nat → Nat → Option String)
    (gemini : String → String → Option String) : Option VisualAsset :=
  if item.type = VType.VIDEO then
    some { type := AssetType.video, description := item.description,
           videoStart := some (jsOrNum item.videoStartTime 0),
           videoEnd := some (jsOrNum item.videoEndTime 5) }
  else
    let dims := imageDims platform
    let prompt := jsOrStr item.imagePrompt item.description
    match flux prompt dims.1 dims.2 with
    | some b =>
      some { type := AssetType.image, description := item.description,
             base64 := some b, prompt := some prompt }
    | none =>
      match gemini prompt (geminiAspect platform) with
      | some b =>
        some { type := AssetType.image, description := item.description,
               base64 := some b, prompt := some prompt }
      | none => none

/-- A probe primary provider that reports the requested dimensions. -/
def probeFlux : String → Nat → Nat → Option String :=
  fun _ w h => some (toString w ++ "x" ++ toString h)

/-- A probe fallback provider that reports the requested aspect ratio. -/
def probeGemini : String → String → Option String :=
  fun _ ar => some ar

/-! ## `generateVoiceover` (geminiService.ts lines 95-135) -/

/-- Observable outcome of a `generateVoiceover` run: the value returned or
error thrown, the number of TTS calls issued, and the awaited delays (ms). -/
structure VoRun where
  result : Except String String
  attemptsMade : Nat
  delays : List Nat
deriving Repr

/-- The retry loop of `generateVoiceover` (3 attempts, delay
`2000 * (attempt + 1)` ms after every failed attempt, error mentioning the
attempt count and the last failure after exhaustion).  `made` counts
attempts already executed; `lastMsg` is the last error message. -/
def generateVoiceoverAux (att : Nat → Except String String) :
    Nat → Nat → String → VoRun
  | 0, made, lastMsg =>
    ⟨.error ("Failed to generate audio after 3 attempts. " ++ lastMsg), made, []⟩
  | fuel + 1, made, _ =>
    match att (made + 1) with
    | .ok b => ⟨.ok b, made + 1, []⟩
    | .error msg =>
      let r := generateVoiceoverAux att fuel (made + 1) msg
      ⟨r.result, r.attemptsMade, 2000 * (made + 1) :: r.delays⟩

/-- `generateVoiceover`: clean the script, fail fast when it is empty,
otherwise run up to 3 TTS attempts.  Each attempt is abstracted as its
outcome (`ok` with the audio payload, or `error` with the message of the
exception thrown inside the `try` block). -/
def generateVoiceover (text : String) (att : Nat → Except String String) : VoRun :=
  if cleanScriptForTTS text = "" then
    ⟨.error "Script is empty (or contained only unreadable content).", 0, []⟩
  else generateVoiceoverAux att 3 0 ""

/-! ## `generateVisualPlan` (geminiService.ts lines 145-263) -/

/-- The fixed fallback plan (lines 256-261), as the JavaScript array value
it evaluates to. -/
def fallbackPlanJson : Jval :=
  Jval.jarr [
    Jval.jobj [("type", Jval.jstr "IMAGE"), ("description", Jval.jstr "Intro"),
      ("imagePrompt", Jval.jstr "Futuristic app dashboard glowing 3d render, purple and blue neon")],
    Jval.jobj [("type", Jval.jstr "IMAGE"), ("description", Jval.jstr "Feature Highlight"),
      ("imagePrompt", Jval.jstr "Abstract code visualization high tech blue and purple")],
    Jval.jobj [("type", Jval.jstr "IMAGE"), ("description", Jval.jstr "User Benefit"),
      ("imagePrompt", Jval.jstr "Happy user holding phone modern style, photorealistic")],
    Jval.jobj [("type", Jval.jstr "IMAGE"), ("description", Jval.jstr "Call to Action"),
      ("imagePrompt", Jval.jstr "Sleek product logo minimalist background, cinematic lighting")]]

/-- Response processing of `generateVisualPlan` (lines 209-263).  The model
request is abstracted as its outcome: `error` when the request throws, `ok t`
with the (possibly absent) `response.text` otherwise.  The text (defaulted
to `"[]"` when falsy) is cleaned and parsed; a parse failure is rethrown
into the outer catch, which returns the fallback plan. -/
def generateVisualPlan (request : Except String (Option String)) : Jval :=
  match request with
  | .error _ => fallbackPlanJson
  | .ok t =>
    match parseJsonStr (cleanJson (jsOrStr t "[]")) with
    | some j => j
    | none => fallbackPlanJson

/-- Elements of a JSON array, when the value is an array. -/
def jsonElems : Jval → Option (List Jval)
  | Jval.jarr xs => some xs
  | _ => none

/-- First field with the given key, when the value is an object. -/
def jsonField (key : String) : Jval → Option Jval
  | Jval.jobj fs =>
    match fs.find? (fun f => f.1 == key) with
    | some f => some f.2
    | none => none
  | _ => none

/-- Does every element of the array carry `"type": "IMAGE"`? -/
def allImageItems (j : Jval) : Bool :=
  match jsonElems j with
  | some xs =>
    xs.all (fun x =>
      match jsonField "type" x with
      | some (Jval.jstr s) => s == "IMAGE"
      | _ => false)
  | none => false

/-- The `description` fields of an array of objects, in order. -/
def descListOf (j : Jval) : Option (List String) :=
  match jsonElems j with
  | some xs =>
    xs.mapM (fun x =>
      match jsonField "description" x with
      | some (Jval.jstr s) => some s
      | _ => none)
  | none => none

/-! ## Frame sampling inside `generateVisualPlan` (lines 157-175) -/

/-- `Math.ceil(videoFrames.length / MAX_CONTEXT_FRAMES)` with
`MAX_CONTEXT_FRAMES = 5`. -/
def frameStride (n : Nat) : Nat := (n + 4) / 5

/-- The frame-selection loop: `for (i = 0; i < n; i += step)` pushing one
frame per iteration, with a `break` once five frames are in (the fuel is
the remaining capacity `5 - count`). -/
def selectFramesAux (n stp : Nat) : Nat → Nat → List Nat
  | 0, _ => []
  | cap + 1, i => if i < n then i :: selectFramesAux n stp cap (i + stp) else []

/-- Indices of the frames `generateVisualPlan` attaches to its request when
`n` frames are supplied (the `videoFrames.length > 0` guard is the outer
`if`). -/
def selectedFrameIndices (n : Nat) : List Nat :=
  if n = 0 then [] else selectFramesAux n (frameStride n) 5 0

/-! ## `extractTextFromZip` (the zip utility, src/unnamed/part_000) -/

/-- A zip entry: archive-relative name, directory flag, and the text the
entry decodes to via `fileEntry.async('string')`. -/
structure ZipEntry where
  name : List Char
  isDir : Bool
  content : List Char
deriving DecidableEq, Repr

/-- A `ProjectFile` (types.ts) on character lists. -/
structure ProjectFile where
  name : List Char
  content : List Char
deriving DecidableEq, Repr

/-- `RELEVANT_EXTENSIONS` (part_000 lines 6-9). -/
def relevantExtensions : List (List Char) :=
  [".txt".data, ".md".data, ".json".data, ".js".data, ".ts".data, ".tsx".data,
   ".jsx".data, ".html".data, ".css".data, ".py".data, ".java".data,
   ".c".data, ".cpp".data, ".h".data]

/-- Does `pat` occur inside `l` (JavaScript `String.prototype.includes`)? -/
def listHasSub (pat : List Char) : List Char → Bool
  | [] => pat.isEmpty
  | c :: rest => isPrefixCS pat (c :: rest) || listHasSub pat rest

/-- Does `l` end with `pat` (JavaScript `String.prototype.endsWith`)? -/
def listEndsWith (pat l : List Char) : Bool :=
  isPrefixCS pat.reverse l.reverse

/-- `filename.toLowerCase().includes('readme')`. -/
def nameHasReadme (name : List Char) : Bool :=
  listHasSub "readme".data (name.map Char.toLower)

/-- `RELEVANT_EXTENSIONS.some(ext => filename.toLowerCase().endsWith(ext))`. -/
def isRelevant (name : List Char) : Bool :=
  relevantExtensions.any (fun ext => listEndsWith ext (name.map Char.toLower))

/-- `textContent.includes('\0')`. -/
def hasNullByte (l : List Char) : Bool :=
  l.any (fun c => c == nullChar)

/-- The comparator sort of part_000 lines 27-31: README-named entries score
-1, everything else 1, and JavaScript's sort is stable, so the sort is
exactly the stable partition putting README-named entries first. -/
def sortEntries (entries : List ZipEntry) : List ZipEntry :=
  entries.filter (fun e => nameHasReadme e.name) ++
  entries.filter (fun e => !nameHasReadme e.name)

/-- The selection loop of `extractTextFromZip` (lines 33-55): stop at 50
files or once the running total reaches 500KB (checked before adding), skip
directories, disallowed extensions and null-byte content, and accumulate
the rest with their full content. -/
def extractLoop : List ZipEntry → List ProjectFile → Nat → List ProjectFile
  | [], files, _ => files
  | e :: rest, files, total =>
    if 50 ≤ files.length then files
    else if 500 * 1024 ≤ total then files
    else if e.isDir then extractLoop rest files total
    else if !isRelevant e.name then extractLoop rest files total
    else if hasNullByte e.content then extractLoop rest files total
    else extractLoop rest (files ++ [⟨e.name, e.content⟩]) (total + e.content.length)

/-- `extractTextFromZip`, from the decoded entry list of the archive. -/
def extractTextFromZip (entries : List ZipEntry) : List ProjectFile :=
  extractLoop (sortEntries entries) [] 0

/-- Cumulative text length of the returned files. -/
def sumLen (fs : List ProjectFile) : Nat :=
  (fs.map (fun f => f.content.length)).sum

/-- A returned file is well-formed: allow-listed extension, no null byte. -/
def goodFile (f : ProjectFile) : Bool :=
  isRelevant f.name && !hasNullByte f.content


/-! ## Concrete inputs used by counterexamples and witnesses -/

/-- Attempt outcomes where the first response carries no image URL and any
further attempt would throw: the claim under test predicts retries, the
code returns `null` at once. -/
def fluxNoUrlAttempts : Nat → Except String (Option String) :=
  fun i => if i = 1 then Except.ok none else Except.error "network"

/-- A single well-formed text entry of 512001 characters — one character
over the 500KB cumulative cap. -/
def bigEntry : ZipEntry :=
  { name := "a.txt".data, isDir := false, content := List.replicate 512001 'a' }

/-! ## Theorems -/

/-- C7.  When the TTS-cleaned script is empty, `generateVoiceover` throws
the empty-script error with zero provider calls and zero delays, whatever
the provider would have answered. -/
theorem generateVoiceover_emptyScript (text : String)
    (att : Nat → Except String String)
    (h : cleanScriptForTTS text = "") :
    generateVoiceover text att =
      ⟨.error "Script is empty (or contained only unreadable content).", 0, []⟩ := by
  simp [generateVoiceover, h]

/-- Witness for C7: an input of whitespace, an asterisk, a bracketed cue and
a parenthetical aside cleans to the empty string, and the run makes no call. -/
theorem generateVoiceover_emptyScript_witness :
    cleanScriptForTTS " *[cue] (aside) " = "" ∧
    generateVoiceover " *[cue] (aside) " (fun _ => Except.ok "audio") =
      ⟨.error "Script is empty (or contained only unreadable content).", 0, []⟩ :=
  ⟨by decide, generateVoiceover_emptyScript _ _ (by decide)⟩

/-- C9.  A `VIDEO` plan item with absent timestamps is passed through with
`videoStart = 0` and `videoEnd = 5`; the result does not depend on either
image provider, so no generation call is made. -/
theorem generateAsset_video_defaults (d : String) (ip : Option String)
    (p : Platform) (flux : String → Nat → Nat → Option String)
    (gemini : String → String → Option String) :
    generateAsset { type := VType.VIDEO, description := d, imagePrompt := ip }
        p flux gemini =
      some { type := AssetType.video, description := d,
             videoStart := some 0, videoEnd := some 5 } := by
  simp [generateAsset, jsOrNum]

/-- C10.  The timestamp defaults follow JavaScript falsiness: a present
`videoEndTime = 0` still yields `videoEnd = 5`, and `videoStartTime = 0`
gives a result identical to an absent `videoStartTime`. -/
theorem generateAsset_video_falsy (d : String) (st : Option Int)
    (p : Platform) (flux : String → Nat → Nat → Option String)
    (gemini : String → String → Option String) :
    generateAsset { type := VType.VIDEO, description := d,
                    videoStartTime := st, videoEndTime := some 0 } p flux gemini =
      some { type := AssetType.video, description := d,
             videoStart := some (jsOrNum st 0), videoEnd := some 5 } ∧
    generateAsset { type := VType.VIDEO, description := d,
                    videoStartTime := some 0 } p flux gemini =
      generateAsset { type := VType.VIDEO, description := d } p flux gemini := by
  constructor
  · simp [generateAsset, jsOrNum]
  · simp [generateAsset, jsOrNum]

/-- C8.  For any `IMAGE` plan item, the dimensions handed to the primary
provider are 768×1024 on portrait platforms (TikTok, Instagram) and
1024×768 on landscape ones (YouTube, Generic), and the fallback provider
is asked for aspect ratio 9:16 resp. 16:9 — observed through probe
providers that echo the requested geometry. -/
theorem generateAsset_platform_geometry (d : String) (ip : Option String) :
    imageDims Platform.tiktok = (768, 1024) ∧
    imageDims Platform.instagram = (768, 1024) ∧
    imageDims Platform.youtube = (1024, 768) ∧
    imageDims Platform.generic = (1024, 768) ∧
    geminiAspect Platform.tiktok = "9:16" ∧
    geminiAspect Platform.instagram = "9:16" ∧
    geminiAspect Platform.youtube = "16:9" ∧
    geminiAspect Platform.generic = "16:9" ∧
    (generateAsset { type := VType.IMAGE, description := d, imagePrompt := ip }
        Platform.tiktok probeFlux probeGemini).bind (fun a => a.base64)
      = some "768x1024" ∧
    (generateAsset { type := VType.IMAGE, description := d, imagePrompt := ip }
        Platform.youtube probeFlux probeGemini).bind (fun a => a.base64)
      = some "1024x768" ∧
    (generateAsset { type := VType.IMAGE, description := d, imagePrompt := ip }
        Platform.instagram (fun _ _ _ => none) probeGemini).bind (fun a => a.base64)
      = some "9:16" ∧
    (generateAsset { type := VType.IMAGE, description := d, imagePrompt := ip }
        Platform.generic (fun _ _ _ => none) probeGemini).bind (fun a => a.base64)
      = some "16:9" := by
  refine ⟨rfl, rfl, rfl, rfl, rfl, rfl, rfl, rfl, ?_, ?_, ?_, ?_⟩ <;>
    simp [generateAsset, probeFlux, probeGemini, imageDims, geminiAspect] <;>
    decide

/-- C4.  If all three TTS attempts throw, `generateVoiceover` makes exactly
3 calls, awaits 2000, 4000 and 6000 ms after the respective failures, and
throws an error carrying the attempt count and the last failure message;
that message contains the substring "3 attempts". -/
theorem generateVoiceover_exhaustion (text : String)
    (att : Nat → Except String String) (m1 m2 m3 : String)
    (hne : cleanScriptForTTS text ≠ "")
    (h1 : att 1 = Except.error m1) (h2 : att 2 = Except.error m2)
    (h3 : att 3 = Except.error m3) :
    generateVoiceover text att =
      ⟨.error ("Failed to generate audio after 3 attempts. " ++ m3), 3,
        [2000, 4000, 6000]⟩ ∧
    (∃ u v, ("Failed to generate audio after 3 attempts. " ++ m3).data
      = u ++ "3 attempts".data ++ v) := by
  constructor
  · simp [generateVoiceover, hne, generateVoiceoverAux, h1, h2, h3]
  · refine ⟨"Failed to generate audio after ".data, ". ".data ++ m3.data, ?_⟩
    obtain ⟨l3⟩ := m3
    show ("Failed to generate audio after 3 attempts. ").data ++ l3 = _
    have hsplit : ("Failed to generate audio after 3 attempts. ").data
        = "Failed to generate audio after ".data ++ ("3 attempts".data ++ ". ".data) := by
      decide
    rw [hsplit]
    simp [List.append_assoc]

/-- Witness for C4: a nonempty script with a provider that always throws
"boom" yields the 3-attempt error, delays 2000/4000/6000, and the
"3 attempts" substring. -/
theorem generateVoiceover_exhaustion_witness :
    generateVoiceover "hello" (fun _ => Except.error "boom") =
      ⟨.error ("Failed to generate audio after 3 attempts. " ++ "boom"), 3,
        [2000, 4000, 6000]⟩ ∧
    (∃ u v, ("Failed to generate audio after 3 attempts. " ++ "boom").data
      = u ++ "3 attempts".data ++ v) :=
  generateVoiceover_exhaustion "hello" (fun _ => Except.error "boom")
    "boom" "boom" "boom" (by decide) rfl rfl rfl

/-- C1 counterexample.  With a first response that contains no image URL,
`generateWithFlux` executes exactly one attempt and returns `null`: the
empty response does not advance the attempt counter, no further attempts
happen before the fallback provider is consulted. -/
theorem generateWithFlux_noUrl_counterexample :
    (generateWithFlux fluxNoUrlAttempts).result = none ∧
    (generateWithFlux fluxNoUrlAttempts).attemptsMade = 1 ∧
    ¬ 2 ≤ (generateWithFlux fluxNoUrlAttempts).attemptsMade := by
  decide

/-- C1 (amended).  `generateWithFlux` retries only thrown attempts — up to
3 of them, with backoff delays 3000 and 4500 ms — while an attempt whose
response carries no image URL makes the function return `null` immediately
after that single attempt, so the caller moves on to the fallback provider
without further primary attempts. -/
theorem generateWithFlux_noUrl_shortCircuits
    (f g : Nat → Except String (Option String)) (e1 e2 e3 : String)
    (hf : f 1 = Except.ok none)
    (hg1 : g 1 = Except.error e1) (hg2 : g 2 = Except.error e2)
    (hg3 : g 3 = Except.error e3) :
    generateWithFlux f = ⟨none, 1, []⟩ ∧
    generateWithFlux g = ⟨none, 3, [3000, 4500]⟩ := by
  constructor
  · simp [generateWithFlux, generateWithFluxAux, hf]
  · simp [generateWithFlux, generateWithFluxAux, hg1, hg2, hg3, fluxDelay]

/-- Witness for the amended C1: concrete attempt functions realising both
hypotheses. -/
theorem generateWithFlux_noUrl_shortCircuits_witness :
    generateWithFlux (fun _ => Except.ok none) = ⟨none, 1, []⟩ ∧
    generateWithFlux (fun _ => Except.error "x") = ⟨none, 3, [3000, 4500]⟩ :=
  generateWithFlux_noUrl_shortCircuits (fun _ => Except.ok none)
    (fun _ => Except.error "x") "x" "x" "x" rfl rfl rfl rfl

/-- C2.  `generateVisualPlan` is total (never raises) and returns the fixed
fallback plan both when the model request throws and when the cleaned
response text fails to parse as JSON; the fallback is an array of exactly 4
items, all of type IMAGE, with the four generic scene descriptions. -/
theorem generateVisualPlan_fallback (e : String) (t : Option String)
    (hp : parseJsonStr (cleanJson (jsOrStr t "[]")) = none) :
    generateVisualPlan (Except.error e) = fallbackPlanJson ∧
    generateVisualPlan (Except.ok t) = fallbackPlanJson ∧
    (jsonElems fallbackPlanJson).map List.length = some 4 ∧
    allImageItems fallbackPlanJson = true ∧
    descListOf fallbackPlanJson =
      some ["Intro", "Feature Highlight", "User Benefit", "Call to Action"] := by
  refine ⟨rfl, ?_, rfl, rfl, rfl⟩
  simp [generateVisualPlan, hp]

/-- Witness for C2: a request error, and a response "oops" whose cleaned
text is not JSON, both map to the 4-scene IMAGE fallback. -/
theorem generateVisualPlan_fallback_witness :
    generateVisualPlan (Except.error "boom") = fallbackPlanJson ∧
    generateVisualPlan (Except.ok (some "oops")) = fallbackPlanJson ∧
    (jsonElems fallbackPlanJson).map List.length = some 4 ∧
    allImageItems fallbackPlanJson = true ∧
    descListOf fallbackPlanJson =
      some ["Intro", "Feature Highlight", "User Benefit", "Call to Action"] :=
  generateVisualPlan_fallback "boom" (some "oops") rfl

/-- Shape of the frame-selection loop: some initial segment of the
arithmetic progression `i, i+stp, …`, at most `cap` long, all below `n`. -/
theorem selectFramesAux_form (n stp : Nat) :
    ∀ cap i, ∃ L, L ≤ cap ∧
      selectFramesAux n stp cap i = (List.range L).map (fun k => i + k * stp) ∧
      (∀ j ∈ selectFramesAux n stp cap i, j < n) := by
  intro cap
  induction cap with
  | zero =>
    intro i
    exact ⟨0, Nat.le_refl 0, by simp [selectFramesAux], by simp [selectFramesAux]⟩
  | succ cap ih =>
    intro i
    by_cases hi : i < n
    · obtain ⟨L, hL, he, hlt⟩ := ih (i + stp)
      refine ⟨L + 1, by omega, ?_, ?_⟩
      · rw [show selectFramesAux n stp (cap + 1) i
              = i :: selectFramesAux n stp cap (i + stp) by simp [selectFramesAux, hi]]
        rw [he, List.range_succ_eq_map]
        simp only [List.map_cons, List.map_map]
        refine congrArg₂ _ (by simp) ?_
        apply List.map_congr_left
        intro a _
        simp [Function.comp]
        ring
      · intro j hj
        rw [show selectFramesAux n stp (cap + 1) i
              = i :: selectFramesAux n stp cap (i + stp) by simp [selectFramesAux, hi]] at hj
        rcases List.mem_cons.mp hj with hj | hj
        · omega
        · exact hlt j hj
    · exact ⟨0, by omega, by simp [selectFramesAux, hi], by simp [selectFramesAux, hi]⟩

/-- C6.  With `n ≥ 1` frames supplied, the plan request samples the frames
at indices `0, s, 2s, …` with stride `s = ceil(n/5)`, never more than five
of them and all within range; for 23 frames the selected indices are
exactly 0, 5, 10, 15, 20. -/
theorem selectedFrameIndices_spec (n : Nat) (h : 1 ≤ n) :
    (selectedFrameIndices n).length ≤ 5 ∧
    selectedFrameIndices n =
      (List.range (selectedFrameIndices n).length).map (fun k => k * frameStride n) ∧
    (∀ j ∈ selectedFrameIndices n, j < n) ∧
    selectedFrameIndices 23 = [0, 5, 10, 15, 20] := by
  have hne : ¬ n = 0 := by omega
  obtain ⟨L, hL, he, hlt⟩ := selectFramesAux_form n (frameStride n) 5 0
  have hsel : selectedFrameIndices n
      = (List.range L).map (fun k => 0 + k * frameStride n) := by
    rw [selectedFrameIndices, if_neg hne]; exact he
  refine ⟨?_, ?_, ?_, by decide⟩
  · simp [hsel]; omega
  · rw [hsel]; simp
  · intro j hj
    rw [selectedFrameIndices, if_neg hne] at hj
    exact hlt j hj

/-- Witness for C6 at the spec's own test vector, 23 frames. -/
theorem selectedFrameIndices_spec_witness :
    (selectedFrameIndices 23).length ≤ 5 ∧
    selectedFrameIndices 23 =
      (List.range (selectedFrameIndices 23).length).map (fun k => k * frameStride 23) ∧
    (∀ j ∈ selectedFrameIndices 23, j < 23) ∧
    selectedFrameIndices 23 = [0, 5, 10, 15, 20] :=
  selectedFrameIndices_spec 23 (by decide)

/-- Invariant of the zip selection loop: the accumulator stays within the
50-file cap, keeps only well-formed files, and — because the size check
runs before each addition — everything except the most recent file sums to
under 500KB. -/
theorem extractLoop_invariant :
    ∀ entries files total,
      files.length ≤ 50 →
      files.all goodFile = true →
      total = sumLen files →
      (files = [] ∨ sumLen files.dropLast < 500 * 1024) →
      ((extractLoop entries files total).length ≤ 50 ∧
       (extractLoop entries files total).all goodFile = true ∧
       (extractLoop entries files total = [] ∨
        sumLen (extractLoop entries files total).dropLast < 500 * 1024)) := by
  intro entries
  induction entries with
  | nil => intro files total h1 h2 h3 h4; exact ⟨h1, h2, h4⟩
  | cons e rest ih =>
    intro files total h1 h2 h3 h4
    simp only [extractLoop]
    split_ifs with c1 c2 c3 c4 c5
    · exact ⟨h1, h2, h4⟩
    · exact ⟨h1, h2, h4⟩
    · exact ih files total h1 h2 h3 h4
    · exact ih files total h1 h2 h3 h4
    · exact ih files total h1 h2 h3 h4
    · refine ih (files ++ [⟨e.name, e.content⟩]) (total + e.content.length) ?_ ?_ ?_ ?_
      · simp; omega
      · simp [h2, goodFile]
        constructor
        · simpa using c4
        · simpa using c5
      · simp [sumLen, h3]
      · right
        rw [List.dropLast_concat]
        omega

/-- C3 (amended).  For every archive, `extractTextFromZip` returns at most
50 files, every returned file has an allow-listed extension and no null
byte in its text, and the cumulative length of all but the last returned
file is under 500KB (the scan stops once the running total reaches the
cap, but the cap is checked before a file is added, so only the final file
may push the total past it). -/
theorem extractTextFromZip_bounds (entries : List ZipEntry) :
    (extractTextFromZip entries).length ≤ 50 ∧
    (extractTextFromZip entries).all goodFile = true ∧
    (extractTextFromZip entries = [] ∨
     sumLen (extractTextFromZip entries).dropLast < 500 * 1024) := by
  have h := extractLoop_invariant (sortEntries entries) [] 0 (by simp) (by simp)
    (by simp [sumLen]) (Or.inl rfl)
  simpa [extractTextFromZip] using h

/-- No null byte in a run of `'a'`. -/
theorem hasNullByte_replicate (n : Nat) :
    hasNullByte (List.replicate n 'a') = false := by
  induction n with
  | zero => rfl
  | succ n ih =>
    rw [List.replicate_succ]
    show (('a' == nullChar) || hasNullByte (List.replicate n 'a')) = false
    rw [ih]
    decide

/-- Cumulative length of a one-file result. -/
theorem sumLen_singleton (f : ProjectFile) : sumLen [f] = f.content.length := by
  simp [sumLen]

/-- C3 counterexample.  A zip with one well-formed 512001-character `.txt`
entry is returned in full: the cumulative content length is 512001
characters, strictly more than the claimed 500KB bound. -/
theorem extractTextFromZip_cap_counterexample :
    500 * 1024 < sumLen (extractTextFromZip [bigEntry]) := by
  have hrel : isRelevant bigEntry.name = true := by decide
  have hdir : bigEntry.isDir = false := rfl
  have hnull : hasNullByte bigEntry.content = false := hasNullByte_replicate 512001
  have hsort : sortEntries [bigEntry] = [bigEntry] := rfl
  have hlen : bigEntry.content.length = 512001 := by
    show (List.replicate 512001 'a').length = 512001
    exact List.length_replicate 512001 'a'
  have hrun : extractTextFromZip [bigEntry]
      = [⟨bigEntry.name, bigEntry.content⟩] := by
    show extractLoop (sortEntries [bigEntry]) [] 0 = _
    rw [hsort]
    simp only [extractLoop]
    rw [if_neg (by decide : ¬ (50 ≤ ([] : List ProjectFile).length))]
    rw [if_neg (by decide : ¬ (500 * 1024 ≤ 0))]
    rw [if_neg (by rw [hdir]; exact Bool.false_ne_true)]
    rw [if_neg (by rw [hrel]; simp)]
    rw [if_neg (by rw [hnull]; exact Bool.false_ne_true)]
    simp only [extractLoop, List.nil_append]
  rw [hrun, sumLen_singleton]
  show 500 * 1024 < bigEntry.content.length
  rw [hlen]
  norm_num

/-- `firstIdxAux` finds the first occurrence, offset by the accumulator. -/
theorem firstIdxAux_found (c : Char) :
    ∀ xs ys i, (∀ x ∈ xs, x ≠ c) →
      firstIdxAux c (xs ++ c :: ys) i = some (i + xs.length) := by
  intro xs
  induction xs with
  | nil => intro ys i h; simp [firstIdxAux]
  | cons x xs ih =>
    intro ys i h
    have hx : ¬ (x == c) = true := by
      simp only [beq_iff_eq]
      exact h x (List.mem_cons_self x xs)
    rw [show (x :: xs) ++ c :: ys = x :: (xs ++ c :: ys) from rfl]
    rw [show firstIdxAux c (x :: (xs ++ c :: ys)) i
          = if (x == c) = true then some i else firstIdxAux c (xs ++ c :: ys) (i + 1) from rfl]
    rw [if_neg hx]
    rw [ih ys (i + 1) (fun y hy => h y (List.mem_cons_of_mem x hy))]
    congr 1
    simp
    omega

/-- `indexOf` at the first occurrence. -/
theorem firstIdx_found (c : Char) (xs ys : List Char) (h : ∀ x ∈ xs, x ≠ c) :
    firstIdx c (xs ++ c :: ys) = some xs.length := by
  unfold firstIdx
  rw [firstIdxAux_found c xs ys 0 h]
  simp

/-- `lastIndexOf` at the last occurrence. -/
theorem lastIdx_found (c : Char) (xs ys : List Char) (h : ∀ x ∈ ys, x ≠ c) :
    lastIdx c (xs ++ c :: ys) = some xs.length := by
  have hrev : (xs ++ c :: ys).reverse = ys.reverse ++ c :: xs.reverse := by
    simp
  unfold lastIdx firstIdx
  rw [hrev, firstIdxAux_found c ys.reverse xs.reverse 0
    (fun x hx => h x (List.mem_reverse.mp hx))]
  simp

/-- The bracket-span step recovers exactly the bracketed segment when the
prefix holds no `[` and the suffix holds no `]`. -/
theorem bracketSpan_extract (p1 m p2 : List Char)
    (hp1 : ∀ x ∈ p1, x ≠ '[') (hp2 : ∀ x ∈ p2, x ≠ ']') :
    bracketSpan (p1 ++ ('[' :: (m ++ [']'])) ++ p2) = '[' :: (m ++ [']']) := by
  have hfi : firstIdx '[' (p1 ++ ('[' :: (m ++ [']'])) ++ p2) = some p1.length := by
    rw [show p1 ++ ('[' :: (m ++ [']'])) ++ p2 = p1 ++ '[' :: ((m ++ [']']) ++ p2) by
      simp [List.append_assoc]]
    exact firstIdx_found '[' p1 _ hp1
  have hli : lastIdx ']' (p1 ++ ('[' :: (m ++ [']'])) ++ p2)
      = some (p1.length + m.length + 1) := by
    rw [show p1 ++ ('[' :: (m ++ [']'])) ++ p2 = (p1 ++ '[' :: m) ++ ']' :: p2 by
      simp [List.append_assoc]]
    rw [lastIdx_found ']' (p1 ++ '[' :: m) p2 hp2]
    simp
    omega
  simp only [bracketSpan, hfi, hli]
  rw [if_pos (by omega : p1.length < p1.length + m.length + 1)]
  rw [List.append_assoc p1 ('[' :: (m ++ [']'])) p2]
  rw [List.drop_left]
  rw [show p1.length + m.length + 1 + 1 - p1.length = ('[' :: (m ++ [']'])).length by
    simp; omega]
  exact List.take_left ('[' :: (m ++ [']'])) p2

/-- The trailing-comma pass keeps a final `]` final: deletions only ever
remove commas, so a string ending in `]` still ends in `]`. -/
theorem rtcAux_ends : ∀ fuel l m, l.length ≤ fuel → l = m ++ [']'] →
    ∃ m2, rtcAux fuel l = m2 ++ [']'] := by
  intro fuel
  induction fuel with
  | zero =>
    intro l m hlen hl
    subst hl
    simp at hlen
  | succ fuel ih =>
    intro l m hlen hl
    cases m with
    | nil =>
      subst hl
      refine ⟨[], ?_⟩
      simp [rtcAux]
    | cons c m' =>
      simp only [List.cons_append] at hl
      subst hl
      simp only [List.length_cons] at hlen
      by_cases hc : c = ','
      · subst hc
        rcases hdw : (m' ++ [']']).dropWhile isJsWs with _ | ⟨b, rest2⟩
        · exfalso
          have hall := List.dropWhile_eq_nil_iff.mp hdw
          have : isJsWs ']' = true := hall ']' (by simp)
          simp [isJsWs] at this
        · simp only [rtcAux, hdw]
          rw [if_pos (by simp)]
          by_cases hbb : (b == ']' || b == '}') = true
          · rw [if_pos hbb]
            rcases List.eq_nil_or_concat rest2 with h2 | ⟨r', x, h2⟩
            · subst h2
              have htd := List.takeWhile_append_dropWhile (p := isJsWs) (l := m' ++ [']'])
              rw [hdw] at htd
              have hb : b = ']' := by
                have h1 : (((m' ++ [']']).takeWhile isJsWs) ++ [b]).getLast? = some b :=
                  List.getLast?_concat _
                rw [htd] at h1
                have h2 : (m' ++ [']']).getLast? = some ']' := List.getLast?_concat _
                exact Option.some.inj (h1.symm.trans h2)
              subst hb
              refine ⟨(m' ++ [']']).takeWhile isJsWs, ?_⟩
              simp [rtcAux]
            · simp only [List.concat_eq_append] at h2
              subst h2
              have htd := List.takeWhile_append_dropWhile (p := isJsWs) (l := m' ++ [']'])
              rw [hdw] at htd
              have hx : x = ']' := by
                have h1 : (((m' ++ [']']).takeWhile isJsWs) ++ b :: (r' ++ [x])).getLast?
                    = some x := by
                  rw [show ((m' ++ [']']).takeWhile isJsWs) ++ b :: (r' ++ [x])
                        = (((m' ++ [']']).takeWhile isJsWs) ++ b :: r') ++ [x] by
                    simp [List.append_assoc]]
                  exact List.getLast?_concat _
                rw [htd] at h1
                have h2 : (m' ++ [']']).getLast? = some ']' := List.getLast?_concat _
                exact Option.some.inj (h1.symm.trans h2)
              subst hx
              have hlen2 : (r' ++ [']']).length ≤ fuel := by
                have hl1 : (((m' ++ [']']).takeWhile isJsWs) ++ b :: (r' ++ [']'])).length
                    = (m' ++ [']']).length := by rw [htd]
                simp only [List.length_append, List.length_cons,
                  List.length_singleton] at hl1 hlen ⊢
                omega
              obtain ⟨m3, h3⟩ := ih (r' ++ [']']) r' hlen2 rfl
              refine ⟨(m' ++ [']']).takeWhile isJsWs ++ b :: m3, ?_⟩
              rw [h3]
              simp [List.append_assoc]
          · rw [if_neg hbb]
            have hlen2 : (m' ++ [']']).length ≤ fuel := by
              simp only [List.length_append, List.length_singleton] at hlen ⊢
              omega
            obtain ⟨m3, h3⟩ := ih (m' ++ [']']) m' hlen2 rfl
            exact ⟨',' :: m3, by rw [h3]; simp⟩
      · have hc' : ¬ (c == ',') = true := by
          simp only [beq_iff_eq]
          exact hc
        simp only [rtcAux]
        rw [if_neg hc']
        have hlen2 : (m' ++ [']']).length ≤ fuel := by
          simp only [List.length_append, List.length_singleton] at hlen ⊢
          omega
        obtain ⟨m3, h3⟩ := ih (m' ++ [']']) m' hlen2 rfl
        exact ⟨c :: m3, by rw [h3]; simp⟩

/-- Trimming does not touch a string delimited by `[` and `]`. -/
theorem jsTrim_bracket_noop (x : List Char) :
    jsTrim ('[' :: (x ++ [']'])) = '[' :: (x ++ [']']) := by
  unfold jsTrim
  have h1 : ('[' :: (x ++ [']'])).dropWhile isJsWs = '[' :: (x ++ [']']) := by
    rw [List.dropWhile_cons]
    rw [if_neg (by decide : ¬ isJsWs '[' = true)]
  rw [h1]
  have h2 : ('[' :: (x ++ [']'])).reverse = ']' :: (x.reverse ++ ['[']) := by
    simp
  rw [h2]
  have h3 : (']' :: (x.reverse ++ ['['])).dropWhile isJsWs = ']' :: (x.reverse ++ ['[']) := by
    rw [List.dropWhile_cons]
    rw [if_neg (by decide : ¬ isJsWs ']' = true)]
  rw [h3, ← h2, List.reverse_reverse]

/-- C5.  `cleanJson` maps empty input to `"[]"`; whenever the fence-stripped
input splits as prose (free of `[`), a bracket-delimited array segment, and
trailing prose (free of `]`), the output is exactly that segment with
trailing commas before `]`/`}` removed (`rtc`); and on the markdown-fenced
example with trailing commas the result parses as a one-element JSON array. -/
theorem cleanJson_spec (s : String) (p1 m p2 : List Char)
    (hstrip : stripFences s.data = p1 ++ ('[' :: (m ++ [']'])) ++ p2)
    (hp1 : ∀ x ∈ p1, x ≠ '[') (hp2 : ∀ x ∈ p2, x ≠ ']') :
    cleanJson "" = "[]" ∧
    (cleanJson s).data = rtc ('[' :: (m ++ [']'])) ∧
    (∃ v, parseJsonStr
        (cleanJson "```json\n[\x7b\"type\":\"IMAGE\",\"description\":\"Intro\",\x7d,]\n```")
      = some (Jval.jarr [v])) := by
  refine ⟨rfl, ?_,
    ⟨Jval.jobj [("type", Jval.jstr "IMAGE"), ("description", Jval.jstr "Intro")], rfl⟩⟩
  have hsne : s.data ≠ [] := by
    intro h0
    rw [h0, show stripFences ([] : List Char) = [] from rfl] at hstrip
    have hl := congrArg List.length hstrip
    simp at hl
    omega
  obtain ⟨c, t, hst⟩ : ∃ c t, s.data = c :: t := by
    cases hsd : s.data with
    | nil => exact absurd hsd hsne
    | cons c t => exact ⟨c, t, rfl⟩
  show cleanJsonL s.data = rtc ('[' :: (m ++ [']']))
  rw [hst]
  rw [show cleanJsonL (c :: t) = jsTrim (rtc (bracketSpan (stripFences (c :: t)))) from rfl]
  rw [← hst, hstrip]
  rw [bracketSpan_extract p1 m p2 hp1 hp2]
  have hr1 : rtc ('[' :: (m ++ [']'])) = '[' :: rtcAux (m ++ [']']).length (m ++ [']']) := by
    show rtcAux ('[' :: (m ++ [']'])).length ('[' :: (m ++ [']'])) = _
    simp only [List.length_cons, rtcAux]
    rw [if_neg (by decide : ¬ ('[' == ',') = true)]
  obtain ⟨m2, h2⟩ := rtcAux_ends (m ++ [']']).length (m ++ [']']) m (Nat.le_refl _) rfl
  rw [hr1, h2]
  exact jsTrim_bracket_noop m2

/-- Witness for C5: prose-wrapped fenced array input, decomposed explicitly. -/
theorem cleanJson_spec_witness :
    cleanJson "" = "[]" ∧
    (cleanJson "Here! ```json\n[\"a\", ]\n``` bye").data
      = rtc ('[' :: ("\"a\", ".data ++ [']'])) ∧
    (∃ v, parseJsonStr
        (cleanJson "```json\n[\x7b\"type\":\"IMAGE\",\"description\":\"Intro\",\x7d,]\n```")
      = some (Jval.jarr [v])) :=
  cleanJson_spec "Here! ```json\n[\"a\", ]\n``` bye"
    "Here! \n".data "\"a\", ".data "\n bye".data
    (by decide) (by decide) (by decide)
